import Mathlib

/-!
Verification of the OSRS Wiki Bucket query builder (`src/query-builder.ts`,
`src/types.ts`) against its natural-language specification.

The TypeScript source is shallowly embedded: the builder's mutable state is a
Lean structure, each fluent method is a state transformer, and `printSQL` /
`formatCondition` are pure string-producing functions translated clause by
clause from the source. JavaScript-specific behaviours are modelled
explicitly: string truthiness (`""` and `undefined` are falsy), template
literal interpolation of plain objects (`"[object Object]"`),
`String.prototype.split('.')`, first-insertion-order de-duplication of
`Array.from(new Set(...))`, and `JSON.stringify` for the condition fallback.

The runtime schema registry (`BUCKET_FIELDS`, generated out of band) is a
parameter `Registry := String → Option (List String)`; `BUCKET_FIELDS[x] || []`
becomes `(reg x).getD []` (a present-but-empty array is truthy in JS, so `||`
only replaces a missing entry, which `getD` matches on `none`).

For heap-aliasing claims (clone independence) a small store model is built on
top of the pure state: each builder object owns cells for its five mutable
containers, methods write through the owning builder's cells, and `clone`
allocates fresh cells, mirroring `[...xs]` / `{...m}` / JSON round-trip copies.
-/

namespace BucketBuilder

/-- JS truthiness of an optional string field: `undefined` and `""` are falsy,
every other string is truthy. -/
def strTruthy : Option String → Bool
  | none => false
  | some s => s ≠ ""

/-- JS `Array.prototype.join(', ')`. -/
def joinComma : List String → String
  | [] => ""
  | [x] => x
  | x :: xs => x ++ ", " ++ joinComma xs

/-- Concatenation of the strings produced from a list, mirroring the
`for (...) sql += piece` loops of `printSQL`. -/
def concatMapStr (f : α → String) : List α → String
  | [] => ""
  | x :: xs => f x ++ concatMapStr f xs

/-- Concatenation of a list of strings. -/
def concatStrList : List String → String
  | [] => ""
  | x :: xs => x ++ concatStrList xs

/-- Does the character list start with the pattern `p`? (JS substring search
helper.) -/
def startsWithL : List Char → List Char → Bool
  | _, [] => true
  | [], _ :: _ => false
  | a :: as, b :: bs => a = b && startsWithL as bs

/-- Does the character list contain `p` as a contiguous run? -/
def hasSubL : List Char → List Char → Bool
  | [], p => startsWithL [] p
  | a :: as, p => startsWithL (a :: as) p || hasSubL as p

/-- `containsSub s sub` holds when `sub` occurs contiguously inside `s`
(JS `String.prototype.includes`). -/
def containsSub (s sub : String) : Bool := hasSubL s.data sub.data

/-- JS `String.prototype.split('.')` on a character list. -/
def splitDotL : List Char → List (List Char)
  | [] => [[]]
  | c :: rest =>
    let r := splitDotL rest
    if c = '.' then [] :: r
    else
      match r with
      | [] => [[c]]
      | h :: t => (c :: h) :: t

/-- JS `field.split('.')`. -/
def splitDot (s : String) : List String := (splitDotL s.data).map String.mk

/-- JS `field.includes('.')`. -/
def hasDot (s : String) : Bool := s.data.any (fun a => a = '.')

/-- The de-duplication performed by `Array.from(new Set(xs))`: JS `Set`
iteration follows first-insertion order. -/
def insertionDedup (l : List String) : List String :=
  l.foldl (fun acc x => if x ∈ acc then acc else acc ++ [x]) []

/-- Specification-side description of first-seen-order de-duplication: keep
each string at its first occurrence, deleting all later duplicates. -/
def keepFirst : List String → List String
  | [] => []
  | x :: xs => x :: keepFirst (xs.filter (fun y => y ≠ x))
termination_by l => l.length
decreasing_by
  simp only [List.length_cons]
  exact Nat.lt_succ_of_le (List.length_filter_le _ _)

/-- A scalar condition value (`ScalarValue = string | number | boolean` in
`src/types.ts`); numbers occurring in queries are integral. -/
inductive ScalarValue where
  | str (s : String)
  | num (n : Int)
  | boolean (b : Bool)
deriving DecidableEq, Repr

/-- Template-literal form of a scalar value as produced by
`typeof valRaw === 'string' ? `(quote)valRaw(quote)` : valRaw` followed by
interpolation: strings are quoted verbatim (no escaping in the source),
numbers and booleans print their JS literal text. -/
def scalarLiteral : ScalarValue → String
  | .str s => "'" ++ s ++ "'"
  | .num n => toString n
  | .boolean b => if b then "true" else "false"

mutual
/-- `BucketCondition` from `src/types.ts`: a simple 2- or 3-element array
condition, a helper combinator, or a `{ _group: [...] }` wrapper. -/
inductive Cond where
  | simple2 (field : String) (value : CondVal)
  | simple3 (field : String) (op : String) (value : CondVal)
  | helper (h : Helper)
  | group (cs : CondList)
/-- `BucketHelperCondition` from `src/types.ts`: the `Bucket.And/Or/Not/Null`
tagged objects. -/
inductive Helper where
  | logicAnd (cs : CondList)
  | logicOr (cs : CondList)
  | logicNot (c : Cond)
  | nullMarker
/-- The value slot of a simple condition: `ScalarValue | BucketHelperCondition`. -/
inductive CondVal where
  | scalar (v : ScalarValue)
  | helper (h : Helper)
/-- A list of conditions (argument array of `Bucket.And`/`Bucket.Or` and of
grouped `where` calls). -/
inductive CondList where
  | nil
  | cons (c : Cond) (cs : CondList)
end

/-- Convert an ordinary list of conditions into a `CondList`. -/
def CondList.ofList : List Cond → CondList
  | [] => .nil
  | c :: cs => .cons c (CondList.ofList cs)

/-- The alias map: a JS plain object used as a string-keyed dictionary.
Insertion order is kept (new keys append, existing keys overwrite in place),
matching JS object semantics. -/
abbrev AliasMap := List (String × String)

/-- Dictionary lookup `aliasMap[k]` (`none` models `undefined`). -/
def aliasLookup : AliasMap → String → Option String
  | [], _ => none
  | (k1, v) :: rest, k => if k1 = k then some v else aliasLookup rest k

/-- Dictionary write `aliasMap[k] = v`. -/
def aliasSet : AliasMap → String → String → AliasMap
  | [], k, v => [(k, v)]
  | (k1, v1) :: rest, k, v =>
    if k1 = k then (k1, v) :: rest else (k1, v1) :: aliasSet rest k v

/-- Lookup followed by the JS truthiness test the source applies to the
result (`mapped ? ... : ...`, `if (!realBucket)`). -/
def truthyLookup (am : AliasMap) (k : String) : Option String :=
  match aliasLookup am k with
  | some v => if v = "" then none else some v
  | none => none

/-- One entry of the builder's `joins` array: the `alias` property is present
only when the 4-argument overload was used with a truthy alias. -/
structure JoinEntry where
  target : String
  aliasName : Option String
  onSource : String
  onTarget : String
deriving DecidableEq, Repr

/-- `QUERY_DEFAULTS.LIMIT` from `src/types.ts`. -/
def DEFAULT_LIMIT : Int := 500

/-- `QUERY_DEFAULTS.MAX_LIMIT` from `src/types.ts`. -/
def MAX_LIMIT : Int := 5000

/-- `QUERY_DEFAULTS.OFFSET` from `src/types.ts`. -/
def DEFAULT_OFFSET : Int := 0

/-- The accumulated state of a `BucketQueryBuilder` instance: the private
fields of the class in `src/query-builder.ts`. -/
structure BuilderState where
  mainBucket : String
  joins : List JoinEntry
  selections : List String
  whereClauses : List Cond
  limitValue : Int
  offsetValue : Int
  orderClauses : List (String × String)
  aliasMap : AliasMap

/-- The constructor: seeds the alias map with the main bucket mapped to
itself. -/
def mkBuilder (bucket : String) : BuilderState :=
  { mainBucket := bucket, joins := [], selections := [], whereClauses := []
    limitValue := DEFAULT_LIMIT, offsetValue := DEFAULT_OFFSET
    orderClauses := [], aliasMap := [(bucket, bucket)] }

/-- `select(...fields)`: appends to the selection list (merges, never
replaces). -/
def BuilderState.select (b : BuilderState) (fields : List String) : BuilderState :=
  { b with selections := b.selections ++ fields }

/-- The runtime implementation shared by both `join` overloads. The 4th
argument models `maybeTargetField`, and the source dispatches on its JS
truthiness (`if (maybeTargetField)`); likewise `if (alias)` guards both the
`alias` property and the alias-map write. -/
def BuilderState.join (b : BuilderState)
    (targetBucket aliasOrSourceField sourceOrTargetField : String)
    (maybeTargetField : Option String) : BuilderState :=
  let fourArg := strTruthy maybeTargetField
  let aliasArg : Option String := if fourArg then some aliasOrSourceField else none
  let sourceField := if fourArg then sourceOrTargetField else aliasOrSourceField
  let targetField := if fourArg then maybeTargetField.getD "" else sourceOrTargetField
  let aliasTruthy := strTruthy aliasArg
  let entry : JoinEntry :=
    { target := targetBucket
      aliasName := if aliasTruthy then aliasArg else none
      onSource := sourceField, onTarget := targetField }
  let am :=
    if aliasTruthy then aliasSet b.aliasMap (aliasArg.getD "") targetBucket
    else aliasSet b.aliasMap targetBucket targetBucket
  { b with joins := b.joins ++ [entry], aliasMap := am }

/-- Push one condition onto `whereClauses` (every `where` overload ends in
such a push). -/
def BuilderState.whereCond (b : BuilderState) (c : Cond) : BuilderState :=
  { b with whereClauses := b.whereClauses ++ [c] }

/-- `where(field, value)`: both runtime branches push `[field, value]`. -/
def BuilderState.where2 (b : BuilderState) (field : String) (value : CondVal) :
    BuilderState :=
  b.whereCond (.simple2 field value)

/-- `where(field, op, value)`: both runtime branches push the triple. -/
def BuilderState.where3 (b : BuilderState) (field op : String) (value : CondVal) :
    BuilderState :=
  b.whereCond (.simple3 field op value)

/-- Variadic `where(...conditions)`: wraps the arguments in a `_group`. -/
def BuilderState.whereGroup (b : BuilderState) (cs : List Cond) : BuilderState :=
  b.whereCond (.group (CondList.ofList cs))

/-- `whereNot(field, value)` = `where(field, '!=', value)`. -/
def BuilderState.whereNot (b : BuilderState) (field : String) (v : ScalarValue) :
    BuilderState :=
  b.where3 field "!=" (.scalar v)

/-- `whereNull(field)` = `where(field, Bucket.Null())`. -/
def BuilderState.whereNull (b : BuilderState) (field : String) : BuilderState :=
  b.where2 field (.helper .nullMarker)

/-- `whereNotNull(field)` = `where(field, '!=', Bucket.Null())`. -/
def BuilderState.whereNotNull (b : BuilderState) (field : String) : BuilderState :=
  b.where3 field "!=" (.helper .nullMarker)

/-- `whereBetween(field, [min, max])` chains `>=` and `<=` conditions. -/
def BuilderState.whereBetween (b : BuilderState) (field : String)
    (lo hi : ScalarValue) : BuilderState :=
  (b.where3 field ">=" (.scalar lo)).where3 field "<=" (.scalar hi)

/-- `whereIn(field, values)` pushes `Bucket.Or({field, v}, ...)`. -/
def BuilderState.whereIn (b : BuilderState) (field : String)
    (values : List ScalarValue) : BuilderState :=
  b.whereCond (.helper (.logicOr
    (CondList.ofList (values.map fun v => Cond.simple2 field (.scalar v)))))

/-- `limit(n)`: reset to the default for `n <= 0` (JS `!limit || limit <= 0`),
clamp to the max above it, set verbatim otherwise. -/
def BuilderState.limit (b : BuilderState) (n : Int) : BuilderState :=
  if n ≤ 0 then { b with limitValue := DEFAULT_LIMIT }
  else if n > MAX_LIMIT then { b with limitValue := MAX_LIMIT }
  else { b with limitValue := n }

/-- Whether `limit(n)` reaches the `console.warn` call (the clamp branch). -/
def limitWarns (n : Int) : Bool :=
  if n ≤ 0 then false else if n > MAX_LIMIT then true else false

/-- `offset(n)`: sets verbatim, no clamping. -/
def BuilderState.offset (b : BuilderState) (n : Int) : BuilderState :=
  { b with offsetValue := n }

/-- `paginate(page, perPage)`. -/
def BuilderState.paginate (b : BuilderState) (page perPage : Int) : BuilderState :=
  let p := if page < 1 then 1 else page
  (b.limit perPage).offset ((p - 1) * perPage)

/-- `first()` = `limit(1)`. -/
def BuilderState.firstRow (b : BuilderState) : BuilderState := b.limit 1

/-- `orderBy(field, direction)`: appends the pair (the unselected-field check
only emits a `console.warn`, it never blocks the append). -/
def BuilderState.orderBy (b : BuilderState) (field direction : String) :
    BuilderState :=
  { b with orderClauses := b.orderClauses ++ [(field, direction)] }

/-- The runtime schema registry `BUCKET_FIELDS` (generated out of band and
treated as read-only input): bucket name to its field-name array, `none` for
an unregistered bucket. -/
abbrev Registry := String → Option (List String)

/-- `resolveAlias(field)`: rewrite a dotted `alias.field` reference through
the alias map, passing unknown qualifiers through unchanged. Only the first
two dot-separated parts are consulted, as in the source. -/
def resolveAlias (am : AliasMap) (field : String) : String :=
  if !hasDot field then field
  else
    let parts := splitDot field
    if parts.length < 2 then field
    else
      let alias1 := parts.getD 0 ""
      let f := parts.getD 1 ""
      match truthyLookup am alias1 with
      | some mapped => mapped ++ "." ++ f
      | none => field

/-- Wrap a selector in single quotes, as `expandField` does. -/
def quoteSel (f : String) : String := "'" ++ f ++ "'"

/-- The per-join contribution to the `'*'` expansion: every registered field
of each join target, qualified with the target bucket's real name. -/
def joinStarFields (reg : Registry) : List JoinEntry → List String
  | [] => []
  | j :: js =>
    ((reg j.target).getD []).map (fun f => quoteSel (j.target ++ "." ++ f))
      ++ joinStarFields reg js

/-- The `allFields` accumulator of the `'*'` branch of `expandField`: main
bucket fields, then per-join target fields in declaration order. -/
def allStarFields (reg : Registry) (b : BuilderState) : List String :=
  ((reg b.mainBucket).getD []).map quoteSel ++ joinStarFields reg b.joins

/-- `expandField(field)`: expand a selector into quoted Lua selectors,
handling `*`, `alias.*`, `alias.field` and bare fields. -/
def expandField (reg : Registry) (b : BuilderState) (field : String) :
    List String :=
  if field = "*" then
    let allFields := allStarFields reg b
    if allFields.isEmpty then [quoteSel "*"] else allFields
  else if hasDot field then
    let parts := splitDot field
    if parts.length ≥ 2 then
      let alias1 := parts.getD 0 ""
      let subField := parts.getD 1 ""
      match truthyLookup b.aliasMap alias1 with
      | none => [quoteSel field]
      | some realBucket =>
        if subField = "*" then
          ((reg realBucket).getD []).map (fun f => quoteSel (realBucket ++ "." ++ f))
        else [quoteSel (realBucket ++ "." ++ subField)]
    else [quoteSel field]
  else [quoteSel field]

/-- One hex digit (lower case), for `JSON.stringify` control escapes. -/
def hexDigit (n : Nat) : Char :=
  if n < 10 then Char.ofNat (48 + n) else Char.ofNat (87 + n)

/-- Four-digit hex form of a code point below 0x10000. -/
def hex4 (n : Nat) : String :=
  String.mk [hexDigit ((n / 4096) % 16), hexDigit ((n / 256) % 16),
    hexDigit ((n / 16) % 16), hexDigit (n % 16)]

/-- `JSON.stringify` escaping of a single character. -/
def jsonEscapeChar (c : Char) : String :=
  if c = '"' then "\\\""
  else if c = '\\' then "\\\\"
  else if c = Char.ofNat 10 then "\\n"
  else if c = Char.ofNat 13 then "\\r"
  else if c = Char.ofNat 9 then "\\t"
  else if c = Char.ofNat 8 then "\\b"
  else if c = Char.ofNat 12 then "\\f"
  else if c.toNat < 32 then "\\u" ++ hex4 c.toNat
  else String.mk [c]

/-- `JSON.stringify` of a string value. -/
def jsonStr (s : String) : String :=
  "\"" ++ concatMapStr jsonEscapeChar s.data ++ "\""

/-- JS `Array.prototype.join(',')` (the separator `JSON.stringify` uses). -/
def joinBare : List String → String
  | [] => ""
  | [x] => x
  | x :: xs => x ++ "," ++ joinBare xs

mutual
/-- `JSON.stringify` of a condition, for the fallback branch of
`formatCondition`. -/
def jsonOfCond : Cond → String
  | .simple2 f v => "[" ++ jsonStr f ++ "," ++ jsonOfVal v ++ "]"
  | .simple3 f op v =>
    "[" ++ jsonStr f ++ "," ++ jsonStr op ++ "," ++ jsonOfVal v ++ "]"
  | .helper h => jsonOfHelper h
  | .group cs =>
    "\x7b" ++ jsonStr "_group" ++ ":[" ++ joinBare (jsonOfCondList cs) ++ "]\x7d"
/-- `JSON.stringify` of a helper object (property insertion order: `_type`
first, as built by the `Bucket` constructors). -/
def jsonOfHelper : Helper → String
  | .logicAnd cs =>
    "\x7b" ++ jsonStr "_type" ++ ":" ++ jsonStr "AND" ++ "," ++
      jsonStr "conditions" ++ ":[" ++ joinBare (jsonOfCondList cs) ++ "]\x7d"
  | .logicOr cs =>
    "\x7b" ++ jsonStr "_type" ++ ":" ++ jsonStr "OR" ++ "," ++
      jsonStr "conditions" ++ ":[" ++ joinBare (jsonOfCondList cs) ++ "]\x7d"
  | .logicNot c =>
    "\x7b" ++ jsonStr "_type" ++ ":" ++ jsonStr "NOT" ++ "," ++
      jsonStr "condition" ++ ":" ++ jsonOfCond c ++ "\x7d"
  | .nullMarker => "\x7b" ++ jsonStr "_type" ++ ":" ++ jsonStr "NULL" ++ "\x7d"
/-- `JSON.stringify` of a condition value. -/
def jsonOfVal : CondVal → String
  | .scalar (.str s) => jsonStr s
  | .scalar (.num n) => toString n
  | .scalar (.boolean b) => if b then "true" else "false"
  | .helper h => jsonOfHelper h
/-- `JSON.stringify` of each condition in a list. -/
def jsonOfCondList : CondList → List String
  | .nil => []
  | .cons c cs => jsonOfCond c :: jsonOfCondList cs
end

mutual
/-- `formatCondition(cond)`: Lua representation of one condition. Branch
order follows the source: helper objects (`'_type' in cond`) first, then the
2- and 3-element array shapes, then the `JSON.stringify` fallback (which, for
values of the declared `BucketCondition` type, is reached only by a nested
`_group`). In the 2-element shape only the `NULL` marker is special-cased; any
other helper value falls through to template-literal interpolation of the
object, producing `[object Object]`. -/
def formatCondition (am : AliasMap) : Cond → String
  | .helper h => formatHelper am h
  | .simple2 f v =>
    let field := resolveAlias am f
    match v with
    | .helper .nullMarker => "\x7b '" ++ field ++ "', bucket.Null() \x7d"
    | .scalar s => "\x7b '" ++ field ++ "', " ++ scalarLiteral s ++ " \x7d"
    | .helper _ => "\x7b '" ++ field ++ "', [object Object] \x7d"
  | .simple3 f op v =>
    let field := resolveAlias am f
    match v with
    | .helper h =>
      "\x7b '" ++ field ++ "', '" ++ op ++ "', " ++ formatHelper am h ++ " \x7d"
    | .scalar s =>
      "\x7b '" ++ field ++ "', '" ++ op ++ "', " ++ scalarLiteral s ++ " \x7d"
  | .group cs => jsonOfCond (.group cs)
/-- Formatting of a helper combinator: `bucket.And(...)`, `bucket.Or(...)`,
`bucket.Not(...)`, `bucket.Null()`. -/
def formatHelper (am : AliasMap) : Helper → String
  | .logicAnd cs => "bucket.And(" ++ joinComma (formatCondList am cs) ++ ")"
  | .logicOr cs => "bucket.Or(" ++ joinComma (formatCondList am cs) ++ ")"
  | .logicNot c => "bucket.Not(" ++ formatCondition am c ++ ")"
  | .nullMarker => "bucket.Null()"
/-- Formatting of each condition in a combinator's argument list. -/
def formatCondList (am : AliasMap) : CondList → List String
  | .nil => []
  | .cons c cs => formatCondition am c :: formatCondList am cs
end

/-- The leading `bucket('<name>')` call. -/
def bucketPiece (b : BuilderState) : String :=
  "bucket('" ++ b.mainBucket ++ "')"

/-- One rendered `.join(...)` clause: both ON fields are alias-resolved and
dot-less fields are auto-qualified (source field with the main bucket, target
field with the join's target). -/
def joinClauseStr (b : BuilderState) (j : JoinEntry) : String :=
  let src0 := resolveAlias b.aliasMap j.onSource
  let tgt0 := resolveAlias b.aliasMap j.onTarget
  let src := if hasDot src0 then src0 else b.mainBucket ++ "." ++ src0
  let tgt := if hasDot tgt0 then tgt0 else j.target ++ "." ++ tgt0
  ".join('" ++ j.target ++ "', '" ++ src ++ "', '" ++ tgt ++ "')"

/-- The rendered join section (declaration order). -/
def joinsPiece (b : BuilderState) : String :=
  concatMapStr (joinClauseStr b) b.joins

/-- Expansion of every accumulated selector, in order. -/
def expandAll (reg : Registry) (b : BuilderState) : List String → List String
  | [] => []
  | s :: ss => expandField reg b s ++ expandAll reg b ss

/-- The rendered `.select(...)` clause: selectors expanded, de-duplicated in
first-insertion order, comma-joined. Empty when nothing was selected or when
every selector expanded to nothing. -/
def selectPiece (reg : Registry) (b : BuilderState) : String :=
  if b.selections.isEmpty then ""
  else
    let finalSelectors := expandAll reg b b.selections
    if finalSelectors.isEmpty then ""
    else ".select(" ++ joinComma (insertionDedup finalSelectors) ++ ")"

/-- The text inside one `.where(...)`: a `_group` renders its members
comma-joined, any other condition renders alone. -/
def whereClauseStr (b : BuilderState) : Cond → String
  | .group cs => joinComma (formatCondList b.aliasMap cs)
  | c => formatCondition b.aliasMap c

/-- The rendered where section: one `.where(...)` per top-level clause. -/
def wherePiece (b : BuilderState) : String :=
  if b.whereClauses.isEmpty then ""
  else concatMapStr (fun c => ".where(" ++ whereClauseStr b c ++ ")") b.whereClauses

/-- The rendered orderBy section: one `.orderBy('field', 'direction')` per
entry, fields alias-resolved. -/
def orderPiece (b : BuilderState) : String :=
  concatMapStr
    (fun o => ".orderBy('" ++ resolveAlias b.aliasMap o.1 ++ "', '" ++ o.2 ++ "')")
    b.orderClauses

/-- The `.limit(n)` clause, omitted at the default. -/
def limitPiece (b : BuilderState) : String :=
  if b.limitValue ≠ DEFAULT_LIMIT then ".limit(" ++ toString b.limitValue ++ ")"
  else ""

/-- The `.offset(n)` clause, omitted at the default. -/
def offsetPiece (b : BuilderState) : String :=
  if b.offsetValue ≠ DEFAULT_OFFSET then ".offset(" ++ toString b.offsetValue ++ ")"
  else ""

/-- `printSQL()`: the deterministic single pass over accumulated state,
appending each clause section in the source's fixed order. -/
def printSQL (reg : Registry) (b : BuilderState) : String :=
  let sql1 := bucketPiece b
  let sql2 := sql1 ++ joinsPiece b
  let sql3 := sql2 ++ selectPiece reg b
  let sql4 := sql3 ++ wherePiece b
  let sql5 := sql4 ++ orderPiece b
  let sql6 := sql5 ++ limitPiece b
  let sql7 := sql6 ++ offsetPiece b
  sql7 ++ ".run()"

/-- Specification-side clause list: the rendered query is exactly this list
of clauses concatenated left to right, so clause positions are monotonically
increasing in the fixed order bucket, joins, selection, wheres, orderBys,
limit, offset, terminal marker. -/
def clauseList (reg : Registry) (b : BuilderState) : List String :=
  [bucketPiece b]
    ++ b.joins.map (joinClauseStr b)
    ++ (if selectPiece reg b = "" then [] else [selectPiece reg b])
    ++ b.whereClauses.map (fun c => ".where(" ++ whereClauseStr b c ++ ")")
    ++ b.orderClauses.map
      (fun o => ".orderBy('" ++ resolveAlias b.aliasMap o.1 ++ "', '" ++ o.2 ++ "')")
    ++ (if b.limitValue = DEFAULT_LIMIT then []
        else [".limit(" ++ toString b.limitValue ++ ")"])
    ++ (if b.offsetValue = DEFAULT_OFFSET then []
        else [".offset(" ++ toString b.offsetValue ++ ")"])
    ++ [".run()"]

/-- A sample registry instance for concrete evaluations: one registered
bucket with three fields. -/
def regSample : Registry :=
  fun n => if n = "exchange" then some ["id", "name", "value"] else none

/-- The raw JSON response envelope `BucketApiResponse` from `src/types.ts`:
optional fields model `bucket?` and `error?`. -/
structure BucketApiResponse (T : Type) where
  bucketQuery : String
  bucket : Option (List T)
  error : Option String

/-- The `results` getter of `BucketResponse`: throws
`Error('Bucket API Error: ' + error)` when the `error` field is truthy,
otherwise returns `bucket ?? []`. The thrown path is modelled with `Except`. -/
def responseResults {T : Type} (r : BucketApiResponse T) : Except String (List T) :=
  if strTruthy r.error then Except.error ("Bucket API Error: " ++ r.error.getD "")
  else Except.ok (r.bucket.getD [])

/-- The `first()` method of `BucketResponse`: `this.results[0]`, so the
`results` failure propagates and indexing an empty array yields `undefined`
(`none`). -/
def responseFirst {T : Type} (r : BucketApiResponse T) : Except String (Option T) :=
  match responseResults r with
  | .error e => Except.error e
  | .ok rows => Except.ok rows.head?

/-!
Store model for aliasing claims. A `BuilderObj` is one JS builder object:
its scalar fields live inline (each object has its own slots), and each of
its five mutable containers (`joins`, `selections`, `whereClauses`,
`orderClauses`, `aliasMap`) is a reference into the corresponding cell list
of the `Store`. Methods read the owning builder's cells, apply the pure
transformer, and write the results back through the same references;
`clone()` allocates fresh cells holding copies of the contents, which is the
net effect of `[...xs]`, `{...m}` and `JSON.parse(JSON.stringify(xs))` (on
the inductive condition domain the JSON round-trip reproduces the value
exactly and freshness is what the new cell captures).
-/

/-- One builder object in the store model. -/
structure BuilderObj where
  mainBucket : String
  joinsRef : Nat
  selRef : Nat
  whereRef : Nat
  orderRef : Nat
  aliasRef : Nat
  limitValue : Int
  offsetValue : Int

/-- The heap: builder objects plus one cell list per container kind. -/
structure Store where
  builders : List BuilderObj
  joinsCells : List (List JoinEntry)
  selCells : List (List String)
  whereCells : List (List Cond)
  orderCells : List (List (String × String))
  aliasCells : List AliasMap

/-- Placeholder object for out-of-range reads (never hit on valid refs). -/
def defaultObj : BuilderObj := ⟨"", 0, 0, 0, 0, 0, 0, 0⟩

/-- The builder object at index `i`. -/
def objOf (s : Store) (i : Nat) : BuilderObj := s.builders.getD i defaultObj

/-- Read the pure accumulated state of builder `i` out of the store. -/
def readState (s : Store) (i : Nat) : BuilderState :=
  let ob := s.builders.getD i defaultObj
  { mainBucket := ob.mainBucket
    joins := s.joinsCells.getD ob.joinsRef []
    selections := s.selCells.getD ob.selRef []
    whereClauses := s.whereCells.getD ob.whereRef []
    limitValue := ob.limitValue
    offsetValue := ob.offsetValue
    orderClauses := s.orderCells.getD ob.orderRef []
    aliasMap := s.aliasCells.getD ob.aliasRef [] }

/-- Write a pure state back through builder `i`'s own references: scalar
slots into the object, container contents into the cells it owns. -/
def writeState (s : Store) (i : Nat) (st : BuilderState) : Store :=
  let ob := s.builders.getD i defaultObj
  { builders := s.builders.set i
      { ob with mainBucket := st.mainBucket, limitValue := st.limitValue
                offsetValue := st.offsetValue }
    joinsCells := s.joinsCells.set ob.joinsRef st.joins
    selCells := s.selCells.set ob.selRef st.selections
    whereCells := s.whereCells.set ob.whereRef st.whereClauses
    orderCells := s.orderCells.set ob.orderRef st.orderClauses
    aliasCells := s.aliasCells.set ob.aliasRef st.aliasMap }

/-- The mutating configuration calls of the fluent surface. -/
inductive BuilderOp where
  | select (fields : List String)
  | join (targetBucket aliasOrSourceField sourceOrTargetField : String)
      (maybeTargetField : Option String)
  | where2 (field : String) (value : CondVal)
  | where3 (field op : String) (value : CondVal)
  | whereGroup (cs : List Cond)
  | whereNot (field : String) (v : ScalarValue)
  | whereNull (field : String)
  | whereNotNull (field : String)
  | whereBetween (field : String) (lo hi : ScalarValue)
  | whereIn (field : String) (values : List ScalarValue)
  | orderBy (field direction : String)
  | limit (n : Int)
  | offset (n : Int)
  | paginate (page perPage : Int)
  | firstRow

/-- The pure state transformer of each configuration call. -/
def applyPure : BuilderOp → BuilderState → BuilderState
  | .select fields, b => b.select fields
  | .join t a s mt, b => b.join t a s mt
  | .where2 f v, b => b.where2 f v
  | .where3 f op v, b => b.where3 f op v
  | .whereGroup cs, b => b.whereGroup cs
  | .whereNot f v, b => b.whereNot f v
  | .whereNull f, b => b.whereNull f
  | .whereNotNull f, b => b.whereNotNull f
  | .whereBetween f lo hi, b => b.whereBetween f lo hi
  | .whereIn f vs, b => b.whereIn f vs
  | .orderBy f d, b => b.orderBy f d
  | .limit n, b => b.limit n
  | .offset n, b => b.offset n
  | .paginate p pp, b => b.paginate p pp
  | .firstRow, b => b.firstRow

/-- A configuration call on builder `i` in the store: read, transform, write
back through `i`'s references. -/
def applyOp (op : BuilderOp) (s : Store) (i : Nat) : Store :=
  writeState s i (applyPure op (readState s i))

/-- `clone()` in the store model: a new builder object whose five container
references point at freshly allocated cells holding copies of the contents,
and whose scalar slots copy the values. -/
def cloneRef (s : Store) (i : Nat) : Store × Nat :=
  let st := readState s i
  ({ builders := s.builders ++
      [{ mainBucket := st.mainBucket
         joinsRef := s.joinsCells.length, selRef := s.selCells.length
         whereRef := s.whereCells.length, orderRef := s.orderCells.length
         aliasRef := s.aliasCells.length
         limitValue := st.limitValue, offsetValue := st.offsetValue }]
     joinsCells := s.joinsCells ++ [st.joins]
     selCells := s.selCells ++ [st.selections]
     whereCells := s.whereCells ++ [st.whereClauses]
     orderCells := s.orderCells ++ [st.orderClauses]
     aliasCells := s.aliasCells ++ [st.aliasMap] }, s.builders.length)

/-- Builder `i` is a live object of the store: its index and every container
reference are in range. -/
@[reducible] def ValidRef (s : Store) (i : Nat) : Prop :=
  i < s.builders.length ∧
  (s.builders.getD i defaultObj).joinsRef < s.joinsCells.length ∧
  (s.builders.getD i defaultObj).selRef < s.selCells.length ∧
  (s.builders.getD i defaultObj).whereRef < s.whereCells.length ∧
  (s.builders.getD i defaultObj).orderRef < s.orderCells.length ∧
  (s.builders.getD i defaultObj).aliasRef < s.aliasCells.length

/-- The store with no objects. -/
def emptyStore : Store := ⟨[], [], [], [], [], []⟩

/-- `new BucketQueryBuilder(name)` in the store model: a fresh object with
fresh, empty containers and the seeded alias map. -/
def newBuilder (s : Store) (name : String) : Store × Nat :=
  ({ builders := s.builders ++
      [{ mainBucket := name
         joinsRef := s.joinsCells.length, selRef := s.selCells.length
         whereRef := s.whereCells.length, orderRef := s.orderCells.length
         aliasRef := s.aliasCells.length
         limitValue := DEFAULT_LIMIT, offsetValue := DEFAULT_OFFSET }]
     joinsCells := s.joinsCells ++ [[]]
     selCells := s.selCells ++ [[]]
     whereCells := s.whereCells ++ [[]]
     orderCells := s.orderCells ++ [[]]
     aliasCells := s.aliasCells ++ [[(name, name)]] }, s.builders.length)

/-- A concrete store holding one builder on the sample bucket with one
accumulated condition, for witnesses. -/
def storeSample : Store :=
  applyOp (.where2 "id" (.scalar (.num 1))) (newBuilder emptyStore "exchange").1
    (newBuilder emptyStore "exchange").2

/-- A sample error envelope. -/
def apiErrSample : BucketApiResponse Nat :=
  { bucketQuery := "q", bucket := some [1, 2], error := some "boom" }

/-- A sample success envelope. -/
def apiOkSample : BucketApiResponse Nat :=
  { bucketQuery := "q", bucket := some [7, 8], error := none }

/-- A sample envelope carrying a present-but-empty `error` field. -/
def apiEmptyErrSample : BucketApiResponse Nat :=
  { bucketQuery := "q", bucket := some [1, 2], error := some "" }

/-!
Helper lemmas. None of these is a claim theorem; claim theorems only come at
the end of the file.
-/

theorem sdata_append (s t : String) : (s ++ t).data = s.data ++ t.data := by
  cases s; cases t; rfl

theorem sext {s t : String} (h : s.data = t.data) : s = t := by
  cases s; cases t; exact congrArg String.mk h

theorem startsWithL_nil (l : List Char) : startsWithL l [] = true := by
  cases l <;> rfl

theorem startsWithL_append_self (p t : List Char) :
    startsWithL (p ++ t) p = true := by
  induction p with
  | nil => exact startsWithL_nil t
  | cons a as ih => simp [startsWithL, ih]

theorem startsWithL_refl (l : List Char) : startsWithL l l = true := by
  have h := startsWithL_append_self l []
  simpa using h

theorem startsWithL_append_extend {s p : List Char} (t : List Char)
    (h : startsWithL s p = true) : startsWithL (s ++ t) p = true := by
  induction p generalizing s with
  | nil => exact startsWithL_nil _
  | cons b bs ih =>
    cases s with
    | nil => simp [startsWithL] at h
    | cons a as =>
      simp only [startsWithL, Bool.and_eq_true] at h ⊢
      exact ⟨h.1, ih h.2⟩

theorem hasSubL_of_startsWith {l p : List Char} (h : startsWithL l p = true) :
    hasSubL l p = true := by
  cases l with
  | nil => simpa [hasSubL] using h
  | cons a as => simp [hasSubL, h]

theorem hasSubL_cons {as p : List Char} (a : Char) (h : hasSubL as p = true) :
    hasSubL (a :: as) p = true := by
  simp [hasSubL, h]

theorem hasSubL_append_left {t p : List Char} (s : List Char)
    (h : hasSubL t p = true) : hasSubL (s ++ t) p = true := by
  induction s with
  | nil => simpa using h
  | cons a as ih => exact hasSubL_cons a ih

theorem hasSubL_append_right {s p : List Char} (t : List Char)
    (h : hasSubL s p = true) : hasSubL (s ++ t) p = true := by
  induction s with
  | nil =>
    simp only [hasSubL] at h
    cases p with
    | nil => exact hasSubL_of_startsWith (startsWithL_nil _)
    | cons b bs => simp [startsWithL] at h
  | cons a as ih =>
    simp only [hasSubL, Bool.or_eq_true] at h
    rcases h with h | h
    · exact hasSubL_of_startsWith (startsWithL_append_extend t h)
    · exact hasSubL_cons a (ih h)

theorem containsSub_self (m : String) : containsSub m m = true :=
  hasSubL_of_startsWith (startsWithL_refl m.data)

theorem containsSub_appendL {t m : String} (s : String)
    (h : containsSub t m = true) : containsSub (s ++ t) m = true := by
  unfold containsSub at *
  rw [sdata_append]
  exact hasSubL_append_left s.data h

theorem containsSub_appendR {s m : String} (t : String)
    (h : containsSub s m = true) : containsSub (s ++ t) m = true := by
  unfold containsSub at *
  rw [sdata_append]
  exact hasSubL_append_right t.data h

theorem containsSub_middle (a m c : String) :
    containsSub (a ++ (m ++ c)) m = true :=
  containsSub_appendL a (containsSub_appendR c (containsSub_self m))


theorem myFilterFilter (p q : String → Bool) (l : List String) :
    (l.filter p).filter q = l.filter (fun y => q y && p y) := by
  induction l with
  | nil => rfl
  | cons x xs ih =>
    by_cases hp : p x = true
    · by_cases hq : q x = true
      · simp [List.filter_cons, hp, hq, ih]
      · simp [List.filter_cons, hp, Bool.eq_false_iff.mpr hq, ih]
    · by_cases hq : q x = true
      · simp [List.filter_cons, Bool.eq_false_iff.mpr hp, hq, ih]
      · simp [List.filter_cons, Bool.eq_false_iff.mpr hp, Bool.eq_false_iff.mpr hq, ih]

theorem foldlDedup_eq (l : List String) : ∀ acc : List String,
    l.foldl (fun acc x => if x ∈ acc then acc else acc ++ [x]) acc
      = acc ++ keepFirst (l.filter (fun y => decide (y ∉ acc))) := by
  induction l with
  | nil => intro acc; simp [keepFirst]
  | cons x xs ih =>
    intro acc
    by_cases hx : x ∈ acc
    · have hfilter : (x :: xs).filter (fun y => decide (y ∉ acc))
          = xs.filter (fun y => decide (y ∉ acc)) := by
        simp [List.filter_cons, hx]
      rw [List.foldl_cons, if_pos hx, ih acc, hfilter]
    · have hfilter : (x :: xs).filter (fun y => decide (y ∉ acc))
          = x :: xs.filter (fun y => decide (y ∉ acc)) := by
        simp [List.filter_cons, hx]
      rw [List.foldl_cons, if_neg hx, ih (acc ++ [x]), hfilter, keepFirst]
      have harg : xs.filter (fun y => decide (y ∉ acc ++ [x]))
          = (xs.filter (fun y => decide (y ∉ acc))).filter (fun y => decide (y ≠ x)) := by
        rw [myFilterFilter]
        apply List.filter_congr
        intro y _
        simp [List.mem_append, not_or, and_comm]
      rw [← harg, List.append_assoc]
      rfl

theorem insertionDedup_eq_keepFirst (l : List String) :
    insertionDedup l = keepFirst l := by
  have h := foldlDedup_eq l []
  simpa [insertionDedup] using h

theorem keepFirst_mem (l : List String) (x : String) :
    x ∈ keepFirst l ↔ x ∈ l := by
  induction l using keepFirst.induct with
  | case1 => simp [keepFirst]
  | case2 y ys ih =>
    rw [keepFirst]
    by_cases hxy : x = y
    · subst hxy; simp
    · simp only [List.mem_cons, ih, List.mem_filter]
      constructor
      · rintro (h | ⟨h, _⟩)
        · exact absurd h hxy
        · exact Or.inr h
      · rintro (h | h)
        · exact absurd h hxy
        · exact Or.inr ⟨h, by simpa using hxy⟩

theorem keepFirst_nodup (l : List String) : (keepFirst l).Nodup := by
  induction l using keepFirst.induct with
  | case1 => simp [keepFirst]
  | case2 y ys ih =>
    rw [keepFirst]
    refine List.nodup_cons.mpr ⟨?_, ih⟩
    rw [keepFirst_mem]
    simp

theorem keepFirst_of_nodup {l : List String} (h : l.Nodup) : keepFirst l = l := by
  induction l with
  | nil => rw [keepFirst]
  | cons x xs ih =>
    rw [keepFirst]
    have hx : xs.filter (fun y => decide (y ≠ x)) = xs := by
      apply List.filter_eq_self.mpr
      intro y hy
      have : y ≠ x := by
        intro he; subst he
        exact (List.nodup_cons.mp h).1 hy
      simpa using this
    rw [hx, ih (List.nodup_cons.mp h).2]


theorem sappend_assoc (a b c : String) : (a ++ b) ++ c = a ++ (b ++ c) := by
  apply sext
  rw [sdata_append, sdata_append, sdata_append, sdata_append, List.append_assoc]

theorem sappend_empty (s : String) : s ++ "" = s := by
  apply sext
  rw [sdata_append]
  simp [String.data]

theorem sempty_append (s : String) : "" ++ s = s := by
  apply sext
  rw [sdata_append]
  simp [String.data]

theorem concatMapStr_append (f : α → String) (l1 l2 : List α) :
    concatMapStr f (l1 ++ l2) = concatMapStr f l1 ++ concatMapStr f l2 := by
  induction l1 with
  | nil => rw [List.nil_append, concatMapStr, sempty_append]
  | cons x xs ih => rw [List.cons_append, concatMapStr, concatMapStr, ih, sappend_assoc]

theorem concatStrList_append (l1 l2 : List String) :
    concatStrList (l1 ++ l2) = concatStrList l1 ++ concatStrList l2 := by
  induction l1 with
  | nil => rw [List.nil_append, concatStrList, sempty_append]
  | cons x xs ih => rw [List.cons_append, concatStrList, concatStrList, ih, sappend_assoc]

theorem concatStrList_map (f : α → String) (l : List α) :
    concatStrList (l.map f) = concatMapStr f l := by
  induction l with
  | nil => rfl
  | cons x xs ih => rw [List.map_cons, concatStrList, concatMapStr, ih]

theorem myGetD_set_ne {α : Type} (l : List α) (i j : Nat) (v : α) (d : α)
    (h : i ≠ j) : (l.set i v).getD j d = l.getD j d := by
  induction l generalizing i j with
  | nil => rfl
  | cons x xs ih =>
    cases i with
    | zero =>
      cases j with
      | zero => exact absurd rfl h
      | succ j2 => rfl
    | succ i2 =>
      cases j with
      | zero => rfl
      | succ j2 =>
        have : i2 ≠ j2 := fun he => h (by rw [he])
        simpa [List.set, List.getD] using ih i2 j2 this

theorem myGetD_set_self {α : Type} (l : List α) (i : Nat) (v : α) (d : α)
    (h : i < l.length) : (l.set i v).getD i d = v := by
  induction l generalizing i with
  | nil => exact absurd h (by simp)
  | cons x xs ih =>
    cases i with
    | zero => rfl
    | succ i2 => simpa [List.set, List.getD] using ih i2 (by simpa using h)

theorem myGetD_append_left {α : Type} (l l2 : List α) (j : Nat) (d : α)
    (h : j < l.length) : (l ++ l2).getD j d = l.getD j d := by
  induction l generalizing j with
  | nil => exact absurd h (by simp)
  | cons x xs ih =>
    cases j with
    | zero => rfl
    | succ j2 => simpa [List.getD] using ih j2 (by simpa using h)

theorem myGetD_append_len {α : Type} (l : List α) (x : α) (d : α) :
    (l ++ [x]).getD l.length d = x := by
  induction l with
  | nil => rfl
  | cons y ys ih => simp [List.getD, ih]

theorem readState_writeState_frame (s : Store) (i j : Nat) (st : BuilderState)
    (hij : i ≠ j)
    (hJ : (objOf s i).joinsRef ≠ (objOf s j).joinsRef)
    (hS : (objOf s i).selRef ≠ (objOf s j).selRef)
    (hW : (objOf s i).whereRef ≠ (objOf s j).whereRef)
    (hO : (objOf s i).orderRef ≠ (objOf s j).orderRef)
    (hA : (objOf s i).aliasRef ≠ (objOf s j).aliasRef) :
    readState (writeState s i st) j = readState s j := by
  unfold readState writeState objOf at *
  simp only [myGetD_set_ne _ _ _ _ _ hij, myGetD_set_ne _ _ _ _ _ hJ,
    myGetD_set_ne _ _ _ _ _ hS, myGetD_set_ne _ _ _ _ _ hW,
    myGetD_set_ne _ _ _ _ _ hO, myGetD_set_ne _ _ _ _ _ hA]

theorem readState_clone_source {s : Store} {i : Nat} (h : ValidRef s i) :
    readState (cloneRef s i).1 i = readState s i := by
  obtain ⟨h0, h1, h2, h3, h4, h5⟩ := h
  unfold readState cloneRef
  simp only [myGetD_append_left _ _ _ _ h0]
  simp only [myGetD_append_left _ _ _ _ h1, myGetD_append_left _ _ _ _ h2,
    myGetD_append_left _ _ _ _ h3, myGetD_append_left _ _ _ _ h4,
    myGetD_append_left _ _ _ _ h5]

theorem readState_clone_new (s : Store) (i : Nat) :
    readState (cloneRef s i).1 (cloneRef s i).2 = readState s i := by
  unfold readState cloneRef
  simp only [myGetD_append_len]
  rfl


theorem printSQL_parts (reg : Registry) (b : BuilderState) :
    printSQL reg b =
      bucketPiece b ++ joinsPiece b ++ selectPiece reg b ++ wherePiece b
        ++ orderPiece b ++ limitPiece b ++ offsetPiece b ++ ".run()" := rfl

theorem concatStrList_opt (s : String) :
    concatStrList (if s = "" then [] else [s]) = s := by
  by_cases h : s = ""
  · rw [if_pos h, concatStrList, h]
  · rw [if_neg h, concatStrList, concatStrList, sappend_empty]

theorem wherePiece_eq (b : BuilderState) :
    wherePiece b
      = concatMapStr (fun c => ".where(" ++ whereClauseStr b c ++ ")") b.whereClauses := by
  unfold wherePiece
  by_cases h : b.whereClauses.isEmpty
  · rw [if_pos h]
    rw [List.isEmpty_iff.mp h]
    rfl
  · rw [if_neg h]

theorem limitPiece_opt (b : BuilderState) :
    limitPiece b
      = concatStrList (if b.limitValue = DEFAULT_LIMIT then []
          else [".limit(" ++ toString b.limitValue ++ ")"]) := by
  unfold limitPiece
  by_cases h : b.limitValue = DEFAULT_LIMIT
  · simp [h, concatStrList]
  · simp [h, concatStrList, sappend_empty]

theorem offsetPiece_opt (b : BuilderState) :
    offsetPiece b
      = concatStrList (if b.offsetValue = DEFAULT_OFFSET then []
          else [".offset(" ++ toString b.offsetValue ++ ")"]) := by
  unfold offsetPiece
  by_cases h : b.offsetValue = DEFAULT_OFFSET
  · simp [h, concatStrList]
  · simp [h, concatStrList, sappend_empty]

theorem concatStrList_singleton (s : String) : concatStrList [s] = s := by
  rw [concatStrList, concatStrList, sappend_empty]

theorem printSQL_eq_concat_clauseList (reg : Registry) (b : BuilderState) :
    printSQL reg b = concatStrList (clauseList reg b) := by
  rw [printSQL_parts, clauseList]
  rw [concatStrList_append, concatStrList_append, concatStrList_append,
    concatStrList_append, concatStrList_append, concatStrList_append,
    concatStrList_append]
  rw [concatStrList_map, concatStrList_map, concatStrList_map]
  rw [concatStrList_singleton, concatStrList_singleton]
  rw [concatStrList_opt, ← limitPiece_opt, ← offsetPiece_opt, ← wherePiece_eq]
  rfl


/-!
Claim theorems.
-/

/-- C1: the claim states that every string value in a rendered condition is
escaped (backslashes doubled first, then single quotes backslash-escaped).
The repository's own test suite calls an `escapeLuaString` builder method and
asserts those escaped forms, but no such method exists and `formatCondition`
interpolates string values verbatim: the value `Bob's Axes` renders with its
apostrophe unescaped and `path\to\file` renders with its backslashes intact,
both differing from the escaped forms the claim specifies. -/
theorem c1_escaping_missing_in_code :
    printSQL regSample
      ((mkBuilder "exchange").where2 "name" (.scalar (.str "Bob's Axes")))
      = "bucket('exchange').where(\x7b 'name', 'Bob's Axes' \x7d).run()"
    ∧ printSQL regSample
      ((mkBuilder "exchange").where2 "name" (.scalar (.str "path\\to\\file")))
      = "bucket('exchange').where(\x7b 'name', 'path\\to\\file' \x7d).run()"
    ∧ ("Bob's Axes" : String) ≠ "Bob\\'s Axes"
    ∧ ("path\\to\\file" : String) ≠ "path\\\\to\\\\file" :=
  ⟨rfl, rfl, by decide, by decide⟩

/-- C2 counterexample: in the 2-element condition shape an `AND` combinator
in the value position is not recursively formatted; only the `NULL` marker is
special-cased, and any other helper object reaches template-literal
interpolation, which prints `[object Object]`. -/
theorem c2_counterexample_two_element_and :
    formatCondition [] (.simple2 "f" (.helper (.logicAnd .nil)))
      = "\x7b 'f', [object Object] \x7d"
    ∧ formatCondition [] (.simple2 "f" (.helper (.logicAnd .nil)))
      ≠ "\x7b 'f', " ++ formatHelper [] (.logicAnd .nil) ++ " \x7d" :=
  ⟨rfl, by decide⟩

/-- C2 (amended): in the 3-element shape every combinator value is
recursively formatted; in the 2-element shape only the `NULL` marker is
rendered as its combinator call (`bucket.Null()`, coinciding with its
recursive rendering), while `AND`, `OR` and `NOT` values fall through to
default object stringification (`[object Object]`). -/
theorem c2_combinator_value_rendering :
    (∀ (am : AliasMap) (f op : String) (h : Helper),
      formatCondition am (.simple3 f op (.helper h))
        = "\x7b '" ++ resolveAlias am f ++ "', '" ++ op ++ "', "
            ++ formatHelper am h ++ " \x7d")
    ∧ (∀ (am : AliasMap) (f : String),
      formatCondition am (.simple2 f (.helper .nullMarker))
        = "\x7b '" ++ resolveAlias am f ++ "', "
            ++ formatHelper am .nullMarker ++ " \x7d")
    ∧ (∀ (am : AliasMap) (f : String) (h : Helper), h ≠ .nullMarker →
      formatCondition am (.simple2 f (.helper h))
        = "\x7b '" ++ resolveAlias am f ++ "', [object Object] \x7d") := by
  refine ⟨fun am f op h => ?_, fun am f => ?_, fun am f h hne => ?_⟩
  · apply sext
    simp [formatCondition, sdata_append, List.append_assoc]
  · apply sext
    simp [formatCondition, formatHelper, sdata_append, List.append_assoc]
  · cases h with
    | logicAnd cs => rfl
    | logicOr cs => rfl
    | logicNot c => rfl
    | nullMarker => exact absurd rfl hne

/-- C2 witness: the amended claim evaluated at concrete conditions. -/
theorem c2_combinator_value_rendering_witness :
    formatCondition [] (.simple3 "f" "!=" (.helper .nullMarker))
      = "\x7b 'f', '!=', bucket.Null() \x7d"
    ∧ formatCondition [] (.simple2 "f" (.helper .nullMarker))
      = "\x7b 'f', bucket.Null() \x7d"
    ∧ formatCondition [] (.simple2 "f" (.helper (.logicOr .nil)))
      = "\x7b 'f', [object Object] \x7d" :=
  ⟨(c2_combinator_value_rendering.1 [] "f" "!=" .nullMarker).trans (by decide),
   (c2_combinator_value_rendering.2.1 [] "f").trans (by decide),
   (c2_combinator_value_rendering.2.2 [] "f" (.logicOr .nil)
     (fun hh => nomatch hh)).trans (by decide)⟩

/-- C3: rendering places the clauses of any builder state at monotonically
increasing positions in the fixed order bucket name, joins in declaration
order, one combined selection clause, one where clause per top-level
condition or group in declaration order, one orderBy clause per entry in
declaration order, limit, offset, terminal `.run()` marker: the rendered
query is exactly the left-to-right concatenation of `clauseList`, whose
definition lists the clauses in that order. -/
theorem c3_fixed_clause_order (reg : Registry) (b : BuilderState) :
    printSQL reg b = concatStrList (clauseList reg b) :=
  printSQL_eq_concat_clauseList reg b


theorem limit_state (b : BuilderState) (n : Int) :
    b.limit n = { b with limitValue :=
      if n ≤ 0 then DEFAULT_LIMIT else if n > MAX_LIMIT then MAX_LIMIT else n } := by
  unfold BuilderState.limit
  by_cases h1 : n ≤ 0
  · rw [if_pos h1, if_pos h1]
  · rw [if_neg h1, if_neg h1]
    by_cases h2 : n > MAX_LIMIT
    · rw [if_pos h2, if_pos h2]
    · rw [if_neg h2, if_neg h2]

theorem printSQL_freshLimit (reg : Registry) (L : Int) :
    printSQL reg { mkBuilder "exchange" with limitValue := L }
      = "bucket('exchange')"
          ++ (limitPiece { mkBuilder "exchange" with limitValue := L } ++ ".run()") := by
  rw [printSQL_parts]
  have hb : bucketPiece { mkBuilder "exchange" with limitValue := L }
      = "bucket('exchange')" := rfl
  have hj : joinsPiece { mkBuilder "exchange" with limitValue := L } = "" := rfl
  have hs : selectPiece reg { mkBuilder "exchange" with limitValue := L } = "" := rfl
  have hw : wherePiece { mkBuilder "exchange" with limitValue := L } = "" := rfl
  have ho : orderPiece { mkBuilder "exchange" with limitValue := L } = "" := rfl
  have hoff : offsetPiece { mkBuilder "exchange" with limitValue := L } = "" := rfl
  rw [hb, hj, hs, hw, ho, hoff, sappend_empty, sappend_empty, sappend_empty,
    sappend_empty, sappend_assoc, sappend_empty]

/-- C4: `limit(n)` with `n <= 0` resets the stored limit to the default 500
and the rendered query omits the limit clause; `n > 5000` clamps to 5000,
reaches the warning, and renders `.limit(5000)`; `1 <= n <= 5000` stores `n`
and the rendered query contains `.limit(n)` exactly when `n` differs from the
default 500. -/
theorem c4_limit_clamping (reg : Registry) (n : Int) :
    if n ≤ 0 then
      ((mkBuilder "exchange").limit n).limitValue = DEFAULT_LIMIT
      ∧ limitWarns n = false
      ∧ containsSub (printSQL reg ((mkBuilder "exchange").limit n)) ".limit(" = false
    else if n > MAX_LIMIT then
      ((mkBuilder "exchange").limit n).limitValue = MAX_LIMIT
      ∧ limitWarns n = true
      ∧ containsSub (printSQL reg ((mkBuilder "exchange").limit n)) ".limit(5000)" = true
    else
      ((mkBuilder "exchange").limit n).limitValue = n
      ∧ limitWarns n = false
      ∧ (containsSub (printSQL reg ((mkBuilder "exchange").limit n))
          (".limit(" ++ toString n ++ ")") = true ↔ n ≠ DEFAULT_LIMIT) := by
  by_cases h1 : n ≤ 0
  · rw [if_pos h1, limit_state, if_pos h1]
    refine ⟨rfl, ?_, ?_⟩
    · unfold limitWarns; rw [if_pos h1]
    · have hp : printSQL reg { mkBuilder "exchange" with limitValue := DEFAULT_LIMIT }
          = "bucket('exchange').run()" := rfl
      rw [hp]; decide
  · rw [if_neg h1]
    by_cases h2 : n > MAX_LIMIT
    · rw [if_pos h2, limit_state, if_neg h1, if_pos h2]
      refine ⟨rfl, ?_, ?_⟩
      · unfold limitWarns; rw [if_neg h1, if_pos h2]
      · have hp : printSQL reg { mkBuilder "exchange" with limitValue := MAX_LIMIT }
            = "bucket('exchange').limit(5000).run()" := rfl
        rw [hp]; decide
    · rw [if_neg h2, limit_state, if_neg h1, if_neg h2]
      refine ⟨rfl, ?_, ?_⟩
      · unfold limitWarns; rw [if_neg h1, if_neg h2]
      · by_cases h3 : n = DEFAULT_LIMIT
        · subst h3
          have hp : printSQL reg { mkBuilder "exchange" with limitValue := DEFAULT_LIMIT }
              = "bucket('exchange').run()" := rfl
          rw [hp]
          simp only [ne_eq, not_true_eq_false, iff_false]
          decide
        · have hl : limitPiece { mkBuilder "exchange" with limitValue := n }
              = ".limit(" ++ toString n ++ ")" := by
            unfold limitPiece
            rw [if_pos]
            exact h3
          rw [printSQL_freshLimit, hl]
          simp only [ne_eq, h3, not_false_eq_true, iff_true]
          exact containsSub_middle _ _ _
  

/-- C5: selections merge across `select` calls (accumulation appends, never
replaces); de-duplication happens only at render time and keeps the first
occurrence of each expanded selector, so every selector appears exactly once
in the rendered clause in first-seen order; concretely,
`select('id','id')` renders a clause containing `'id'` once. -/
theorem c5_select_merge_dedup :
    (∀ (b : BuilderState) (fields : List String),
        (b.select fields).selections = b.selections ++ fields)
    ∧ (∀ l : List String, insertionDedup l = keepFirst l)
    ∧ (∀ l : List String, (insertionDedup l).Nodup)
    ∧ (∀ (l : List String) (x : String), x ∈ insertionDedup l ↔ x ∈ l)
    ∧ (∀ (reg : Registry) (b : BuilderState),
        selectPiece reg b =
          if b.selections.isEmpty then ""
          else if (expandAll reg b b.selections).isEmpty then ""
          else ".select("
            ++ joinComma (keepFirst (expandAll reg b b.selections)) ++ ")")
    ∧ printSQL regSample ((mkBuilder "exchange").select ["id", "id"])
        = "bucket('exchange').select('id').run()" := by
  refine ⟨fun b fields => rfl, insertionDedup_eq_keepFirst, ?_, ?_, ?_, rfl⟩
  · intro l
    rw [insertionDedup_eq_keepFirst]
    exact keepFirst_nodup l
  · intro l x
    rw [insertionDedup_eq_keepFirst]
    exact keepFirst_mem l x
  · intro reg b
    simp only [selectPiece, insertionDedup_eq_keepFirst]


/-- C6: `clone()` produces a builder with identical accumulated state (so the
rendered output matches the original's), and the two builders are
value-independent: applying any subsequent configuration call (in particular
one that appends to a condition list) to either builder leaves the other's
state, and hence its rendered output, unchanged. -/
theorem c6_clone_value_independence (reg : Registry) (s : Store) (i : Nat)
    (h : ValidRef s i) :
    readState (cloneRef s i).1 (cloneRef s i).2 = readState s i
    ∧ printSQL reg (readState (cloneRef s i).1 (cloneRef s i).2)
        = printSQL reg (readState (cloneRef s i).1 i)
    ∧ ∀ op : BuilderOp,
        (readState (applyOp op (cloneRef s i).1 (cloneRef s i).2) i
            = readState (cloneRef s i).1 i)
        ∧ (readState (applyOp op (cloneRef s i).1 i) (cloneRef s i).2
            = readState (cloneRef s i).1 (cloneRef s i).2)
        ∧ (printSQL reg (readState (applyOp op (cloneRef s i).1 (cloneRef s i).2) i)
            = printSQL reg (readState (cloneRef s i).1 i))
        ∧ (printSQL reg (readState (applyOp op (cloneRef s i).1 i) (cloneRef s i).2)
            = printSQL reg (readState (cloneRef s i).1 (cloneRef s i).2)) := by
  obtain ⟨h0, h1, h2, h3, h4, h5⟩ := h
  have hnew := readState_clone_new s i
  have hsrc := readState_clone_source ⟨h0, h1, h2, h3, h4, h5⟩
  have hobjOld : objOf (cloneRef s i).1 i = objOf s i := by
    unfold objOf cloneRef
    exact myGetD_append_left _ _ _ _ h0
  have hobjNew : objOf (cloneRef s i).1 (cloneRef s i).2
      = { mainBucket := (readState s i).mainBucket
          joinsRef := s.joinsCells.length, selRef := s.selCells.length
          whereRef := s.whereCells.length, orderRef := s.orderCells.length
          aliasRef := s.aliasCells.length
          limitValue := (readState s i).limitValue
          offsetValue := (readState s i).offsetValue } := by
    unfold objOf cloneRef
    exact myGetD_append_len _ _ _
  have hij : i ≠ (cloneRef s i).2 := Nat.ne_of_lt h0
  have hJ2 : (objOf (cloneRef s i).1 i).joinsRef
      ≠ (objOf (cloneRef s i).1 (cloneRef s i).2).joinsRef := by
    rw [hobjOld, hobjNew]
    exact Nat.ne_of_lt h1
  have hS2 : (objOf (cloneRef s i).1 i).selRef
      ≠ (objOf (cloneRef s i).1 (cloneRef s i).2).selRef := by
    rw [hobjOld, hobjNew]
    exact Nat.ne_of_lt h2
  have hW2 : (objOf (cloneRef s i).1 i).whereRef
      ≠ (objOf (cloneRef s i).1 (cloneRef s i).2).whereRef := by
    rw [hobjOld, hobjNew]
    exact Nat.ne_of_lt h3
  have hO2 : (objOf (cloneRef s i).1 i).orderRef
      ≠ (objOf (cloneRef s i).1 (cloneRef s i).2).orderRef := by
    rw [hobjOld, hobjNew]
    exact Nat.ne_of_lt h4
  have hA2 : (objOf (cloneRef s i).1 i).aliasRef
      ≠ (objOf (cloneRef s i).1 (cloneRef s i).2).aliasRef := by
    rw [hobjOld, hobjNew]
    exact Nat.ne_of_lt h5
  refine ⟨hnew, by rw [hnew, hsrc], fun op => ?_⟩
  have frameA : readState (applyOp op (cloneRef s i).1 (cloneRef s i).2) i
      = readState (cloneRef s i).1 i := by
    unfold applyOp
    exact readState_writeState_frame _ _ _ _ hij.symm hJ2.symm hS2.symm hW2.symm
      hO2.symm hA2.symm
  have frameB : readState (applyOp op (cloneRef s i).1 i) (cloneRef s i).2
      = readState (cloneRef s i).1 (cloneRef s i).2 := by
    unfold applyOp
    exact readState_writeState_frame _ _ _ _ hij hJ2 hS2 hW2 hO2 hA2
  exact ⟨frameA, frameB, by rw [frameA], by rw [frameB]⟩

/-- C6 witness: a concrete one-builder store; cloning yields equal state and
appending a condition to the clone leaves the original's state untouched. -/
theorem c6_clone_value_independence_witness :
    ValidRef storeSample 0
    ∧ readState (cloneRef storeSample 0).1 (cloneRef storeSample 0).2
        = readState storeSample 0
    ∧ readState (applyOp (.where2 "id" (.scalar (.num 2)))
          (cloneRef storeSample 0).1 (cloneRef storeSample 0).2) 0
        = readState (cloneRef storeSample 0).1 0 :=
  ⟨by decide,
   (c6_clone_value_independence regSample storeSample 0 (by decide)).1,
   ((c6_clone_value_independence regSample storeSample 0 (by decide)).2.2
     (.where2 "id" (.scalar (.num 2)))).1⟩


theorem isEmpty_append_two {α : Type} (l : List α) (a b : α) :
    (l ++ [a, b]).isEmpty = false := by
  cases l <;> rfl

/-- C7: `whereBetween(f, [a, b])` is literally `where(f, '>=', a)` followed by
`where(f, '<=', b)`: it appends exactly those two conditions to the clause
list, and the rendered query contains the two corresponding `.where` clauses
adjacently, `>=` first and `<=` second (inclusive on both ends). -/
theorem c7_whereBetween_two_clauses (reg : Registry) (b : BuilderState)
    (f : String) (lo hi : ScalarValue) :
    b.whereBetween f lo hi = (b.where3 f ">=" (.scalar lo)).where3 f "<=" (.scalar hi)
    ∧ (b.whereBetween f lo hi).whereClauses
        = b.whereClauses
            ++ [.simple3 f ">=" (.scalar lo), .simple3 f "<=" (.scalar hi)]
    ∧ containsSub (printSQL reg (b.whereBetween f lo hi))
        ((".where(" ++ formatCondition b.aliasMap (.simple3 f ">=" (.scalar lo)) ++ ")")
          ++ (".where(" ++ formatCondition b.aliasMap (.simple3 f "<=" (.scalar hi)) ++ ")"))
        = true := by
  have hcl : (b.whereBetween f lo hi).whereClauses
      = b.whereClauses
          ++ [.simple3 f ">=" (.scalar lo), .simple3 f "<=" (.scalar hi)] := by
    simp [BuilderState.whereBetween, BuilderState.where3, BuilderState.whereCond]
  refine ⟨rfl, hcl, ?_⟩
  have ham : (b.whereBetween f lo hi).aliasMap = b.aliasMap := rfl
  have hwp : wherePiece (b.whereBetween f lo hi)
      = concatMapStr
          (fun c => ".where(" ++ whereClauseStr (b.whereBetween f lo hi) c ++ ")")
          b.whereClauses
        ++ ((".where("
              ++ formatCondition b.aliasMap (.simple3 f ">=" (.scalar lo)) ++ ")")
            ++ (".where("
              ++ formatCondition b.aliasMap (.simple3 f "<=" (.scalar hi)) ++ ")")) := by
    rw [wherePiece_eq, hcl, concatMapStr_append]
    rw [concatMapStr, concatMapStr, concatMapStr, sappend_empty]
    rfl
  rw [printSQL_parts, hwp]
  rw [← sappend_assoc]
  exact containsSub_appendR _ (containsSub_appendR _ (containsSub_appendR _
    (containsSub_appendR _ (containsSub_appendL _ (containsSub_self _)))))


/-- C8 counterexample: the claim says `results`/`first()` raise if and only
if the envelope carries an `error` field. The getter tests JS truthiness
(`if (this.raw.error)`), so an envelope whose `error` field is present but
empty does not raise: `results` returns the rows and `first()` their head. -/
theorem c8_counterexample_empty_error :
    apiEmptyErrSample.error.isSome = true
    ∧ responseResults apiEmptyErrSample = Except.ok [1, 2]
    ∧ responseFirst apiEmptyErrSample = Except.ok (some 1) :=
  ⟨rfl, rfl, rfl⟩

/-- C8 (amended): `results` and `first()` raise if and only if the envelope
carries a truthy (non-empty) `error` field; the failure message contains the
upstream error text; without a truthy error, `results` is the row array
defaulting to the empty sequence when `bucket` is absent, and `first()` is
its optional head. -/
theorem c8_error_raising (T : Type) (r : BucketApiResponse T) :
    ((∃ msg, responseResults r = Except.error msg)
      ↔ (∃ e, r.error = some e ∧ e ≠ ""))
    ∧ ((∃ msg, responseFirst r = Except.error msg)
      ↔ (∃ e, r.error = some e ∧ e ≠ ""))
    ∧ (strTruthy r.error = true →
        responseResults r = Except.error ("Bucket API Error: " ++ r.error.getD "")
        ∧ responseFirst r = Except.error ("Bucket API Error: " ++ r.error.getD "")
        ∧ containsSub ("Bucket API Error: " ++ r.error.getD "") (r.error.getD "")
            = true)
    ∧ (strTruthy r.error = false →
        responseResults r = Except.ok (r.bucket.getD [])
        ∧ responseFirst r = Except.ok (r.bucket.getD []).head?) := by
  have htruthy : strTruthy r.error = true ↔ ∃ e, r.error = some e ∧ e ≠ "" := by
    cases he : r.error with
    | none => simp [strTruthy]
    | some e =>
      simp only [strTruthy]
      constructor
      · intro hd
        exact ⟨e, rfl, by simpa using hd⟩
      · rintro ⟨e2, he2, hne⟩
        cases he2
        simpa using hne
  constructor
  · constructor
    · rintro ⟨msg, hmsg⟩
      unfold responseResults at hmsg
      by_cases ht : strTruthy r.error = true
      · exact htruthy.mp ht
      · rw [if_neg (by simpa using ht)] at hmsg
        exact absurd hmsg (by simp)
    · intro hex
      refine ⟨"Bucket API Error: " ++ r.error.getD "", ?_⟩
      unfold responseResults
      rw [if_pos (htruthy.mpr hex)]
  constructor
  · constructor
    · rintro ⟨msg, hmsg⟩
      unfold responseFirst at hmsg
      by_cases ht : strTruthy r.error = true
      · exact htruthy.mp ht
      · unfold responseResults at hmsg
        rw [if_neg (by simpa using ht)] at hmsg
        exact absurd hmsg (by simp)
    · intro hex
      refine ⟨"Bucket API Error: " ++ r.error.getD "", ?_⟩
      unfold responseFirst responseResults
      rw [if_pos (htruthy.mpr hex)]
  constructor
  · intro ht
    have hres : responseResults r
        = Except.error ("Bucket API Error: " ++ r.error.getD "") := by
      unfold responseResults
      rw [if_pos ht]
    refine ⟨hres, ?_, ?_⟩
    · unfold responseFirst
      rw [hres]
    · exact containsSub_appendL _ (containsSub_self _)
  · intro hf
    have hres : responseResults r = Except.ok (r.bucket.getD []) := by
      unfold responseResults
      rw [if_neg (by simp [hf])]
    refine ⟨hres, ?_⟩
    unfold responseFirst
    rw [hres]

/-- C8 witness: the amended claim evaluated at a concrete error envelope and
a concrete success envelope. -/
theorem c8_error_raising_witness :
    (responseResults apiErrSample
        = Except.error ("Bucket API Error: " ++ "boom")
      ∧ responseFirst apiErrSample
        = Except.error ("Bucket API Error: " ++ "boom")
      ∧ containsSub ("Bucket API Error: " ++ "boom") "boom" = true)
    ∧ (responseResults apiOkSample = Except.ok [7, 8]
      ∧ responseFirst apiOkSample = Except.ok (some 7)) :=
  ⟨(c8_error_raising Nat apiErrSample).2.2.1 rfl,
   (c8_error_raising Nat apiOkSample).2.2.2 rfl⟩


theorem quoteSel_injective : Function.Injective quoteSel := by
  intro a b hab
  have hd := congrArg String.data hab
  rw [quoteSel, quoteSel, sdata_append, sdata_append, sdata_append, sdata_append]
    at hd
  simp at hd
  exact sext hd

theorem selectPiece_star (reg : Registry) (name : String) :
    selectPiece reg ((mkBuilder name).select ["*"])
      = if allStarFields reg ((mkBuilder name).select ["*"]) = []
        then ".select('*')"
        else ".select("
          ++ joinComma
            (insertionDedup (allStarFields reg ((mkBuilder name).select ["*"])))
          ++ ")" := by
  have hstar : expandField reg ((mkBuilder name).select ["*"]) "*"
      = if (allStarFields reg ((mkBuilder name).select ["*"])).isEmpty
        then [quoteSel "*"]
        else allStarFields reg ((mkBuilder name).select ["*"]) := by
    unfold expandField
    rw [if_pos rfl]
  have hselEmpty : (((mkBuilder name).select ["*"]).selections).isEmpty = false := rfl
  by_cases he : allStarFields reg ((mkBuilder name).select ["*"]) = []
  · rw [if_pos he]
    simp only [selectPiece, expandAll, hselEmpty, Bool.false_eq_true, if_false,
      List.append_nil, hstar, he, List.isEmpty_nil, if_true, ite_true, ite_false]
    rfl
  · rw [if_neg he]
    have hne : (allStarFields reg ((mkBuilder name).select ["*"])).isEmpty = false := by
      simpa [List.isEmpty_iff] using he
    simp only [selectPiece, expandAll, hselEmpty, Bool.false_eq_true, if_false,
      List.append_nil, hstar, hne, ite_false]

/-- C9: rendering a fresh builder after `select('*')` on a bucket whose
registered runtime field list has `N` (distinct, at least one) fields yields
a selection clause of exactly those `N` quoted selectors, each once; when the
registry supplies no fields for the bucket, the wildcard falls back to the
single literal `'*'` selector instead of an empty selection. -/
theorem c9_wildcard_fallback :
    (∀ (reg : Registry) (name : String) (fs : List String),
      reg name = some fs → fs ≠ [] → fs.Nodup →
      selectPiece reg ((mkBuilder name).select ["*"])
          = ".select(" ++ joinComma (fs.map quoteSel) ++ ")"
        ∧ (fs.map quoteSel).length = fs.length
        ∧ (fs.map quoteSel).Nodup)
    ∧ (∀ (reg : Registry) (name : String), (reg name).getD [] = [] →
      selectPiece reg ((mkBuilder name).select ["*"]) = ".select('*')") := by
  constructor
  · intro reg name fs hreg hne hnd
    have hall : allStarFields reg ((mkBuilder name).select ["*"]) = fs.map quoteSel := by
      unfold allStarFields
      rw [show ((mkBuilder name).select ["*"]).mainBucket = name from rfl, hreg,
        show ((mkBuilder name).select ["*"]).joins = ([] : List JoinEntry) from rfl,
        joinStarFields]
      simp
    have hmapne : fs.map quoteSel ≠ [] := by
      simpa using hne
    have hmapnd : (fs.map quoteSel).Nodup := hnd.map quoteSel_injective
    refine ⟨?_, List.length_map fs quoteSel, hmapnd⟩
    rw [selectPiece_star, hall, if_neg hmapne, insertionDedup_eq_keepFirst,
      keepFirst_of_nodup hmapnd]
  · intro reg name hreg
    have hall : allStarFields reg ((mkBuilder name).select ["*"]) = [] := by
      unfold allStarFields
      rw [show ((mkBuilder name).select ["*"]).mainBucket = name from rfl, hreg,
        show ((mkBuilder name).select ["*"]).joins = ([] : List JoinEntry) from rfl,
        joinStarFields]
      simp
    rw [selectPiece_star, if_pos hall]

/-- C9 witness: the sample registry has three fields for `exchange`, so the
wildcard renders the three quoted selectors; an unregistered bucket falls
back to the literal `'*'`. -/
theorem c9_wildcard_fallback_witness :
    selectPiece regSample ((mkBuilder "exchange").select ["*"])
        = ".select(" ++ joinComma (["id", "name", "value"].map quoteSel) ++ ")"
    ∧ selectPiece regSample ((mkBuilder "nope").select ["*"]) = ".select('*')" :=
  ⟨(c9_wildcard_fallback.1 regSample "exchange" ["id", "name", "value"]
      rfl (by decide) (by decide)).1,
   c9_wildcard_fallback.2 regSample "nope" rfl⟩

theorem joinStarFields_eq_nil (reg : Registry) (js : List JoinEntry) :
    joinStarFields reg js = [] ↔ ∀ j ∈ js, (reg j.target).getD [] = [] := by
  induction js with
  | nil => simp [joinStarFields]
  | cons j rest ih => simp [joinStarFields, ih]

theorem joinStarFields_targets (reg : Registry) {js1 js2 : List JoinEntry}
    (h : js1.map JoinEntry.target = js2.map JoinEntry.target) :
    joinStarFields reg js1 = joinStarFields reg js2 := by
  induction js1 generalizing js2 with
  | nil =>
    cases js2 with
    | nil => rfl
    | cons j2 rest2 => simp at h
  | cons j rest ih =>
    cases js2 with
    | nil => simp at h
    | cons j2 rest2 =>
      simp only [List.map_cons, List.cons.injEq] at h
      rw [joinStarFields, joinStarFields, h.1, ih h.2]

/-- C10: expanding the global wildcard yields the main bucket's registered
fields followed, per join in declaration order, by the registered fields of
that join's target qualified with the target bucket's real name; the
expansion never consults the join's alias (builders agreeing on main bucket
and join targets expand identically); and the literal `'*'` fallback branch
is taken exactly when the main bucket and every join target contribute zero
registered fields. -/
theorem c10_wildcard_with_joins :
    (∀ (reg : Registry) (b : BuilderState),
      allStarFields reg b
          = ((reg b.mainBucket).getD []).map quoteSel ++ joinStarFields reg b.joins
        ∧ expandField reg b "*"
          = (if allStarFields reg b = [] then [quoteSel "*"] else allStarFields reg b)
        ∧ (allStarFields reg b = [] ↔
            ((reg b.mainBucket).getD [] = []
              ∧ ∀ j ∈ b.joins, (reg j.target).getD [] = [])))
    ∧ (∀ (reg : Registry) (b1 b2 : BuilderState),
        b1.mainBucket = b2.mainBucket →
        b1.joins.map JoinEntry.target = b2.joins.map JoinEntry.target →
        expandField reg b1 "*" = expandField reg b2 "*") := by
  constructor
  · intro reg b
    refine ⟨rfl, ?_, ?_⟩
    · by_cases he : allStarFields reg b = []
      · rw [if_pos he]
        have hemp : (allStarFields reg b).isEmpty = true := by
          simp [List.isEmpty_iff, he]
        simp only [expandField, if_pos rfl, hemp, if_true, ite_true]
      · rw [if_neg he]
        have hemp : (allStarFields reg b).isEmpty = false := by
          simpa [List.isEmpty_iff] using he
        simp only [expandField, if_pos rfl, hemp, Bool.false_eq_true, if_false,
          if_true, ite_true, ite_false]
    · unfold allStarFields
      simp [joinStarFields_eq_nil]
  · intro reg b1 b2 hmain hjoins
    have hall : allStarFields reg b1 = allStarFields reg b2 := by
      unfold allStarFields
      rw [hmain, joinStarFields_targets reg hjoins]
    simp only [expandField, if_pos rfl, if_true, ite_true, hall]

/-- C10 witness: two joined builders sharing main bucket and join target but
differing in alias expand identically, and an unregistered main bucket with
no joins contributes no star fields. -/
theorem c10_wildcard_with_joins_witness :
    expandField regSample
        ((mkBuilder "exchange").join "exchange" "a1" "id" (some "name")) "*"
      = expandField regSample
        ((mkBuilder "exchange").join "exchange" "id" "name" none) "*"
    ∧ allStarFields regSample (mkBuilder "nope") = [] :=
  ⟨c10_wildcard_with_joins.2 regSample
      ((mkBuilder "exchange").join "exchange" "a1" "id" (some "name"))
      ((mkBuilder "exchange").join "exchange" "id" "name" none) rfl rfl,
   (c10_wildcard_with_joins.1 regSample (mkBuilder "nope")).2.2.mpr
     ⟨rfl, by simp [mkBuilder]⟩⟩


end BucketBuilder
